import Mathlib

/-
Verification of the ClinicManager-Pro data-persistence and derived-view layer.

The TypeScript sources are shallowly embedded:
  * record interfaces from `src/types/index.ts` become structures;
  * the Data Store mutation methods from `src/contexts/DataContext.tsx`
    become pure functions on an explicit `DataState`, with the values the
    code obtains from the wall clock (`Date.now().toString()`,
    `new Date().toISOString()`) passed in as explicit string parameters;
  * the Clinic Store methods from `src/contexts/ThemeContext.tsx`
    (ClinicProvider) become pure functions on an explicit clinic state and
    an explicit key-value storage record;
  * derived view computations (dashboard counters, upcoming-appointment
    list, monthly financial summary) become pure functions over the
    collections;
  * JavaScript string comparison (`<`, `>=`, `localeCompare` on the ASCII
    date/time strings the app uses) is modelled by lexicographic
    comparison of the underlying character lists;
  * `new Date(s).getMonth()` / `.getFullYear()` on an ISO `YYYY-MM-DD`
    date string are modelled by reading the digit groups of the string.
-/

/-- Lexicographic comparison of character lists: the model of JavaScript
string comparison (`a < b` and `a.localeCompare(b) < 0` on ASCII strings). -/
def charListLt : List Char → List Char → Bool
  | _, [] => false
  | [], _ :: _ => true
  | a :: as, b :: bs => if a < b then true else if b < a then false else charListLt as bs

/-- JavaScript `a < b` on strings. -/
def strLt (a b : String) : Bool := charListLt a.data b.data

/-- JavaScript `a <= b` on strings (total order: not `b < a`). -/
def strLe (a b : String) : Bool := !(strLt b a)

/-- Numeric value of a decimal digit character. -/
def digitVal (c : Char) : Nat := c.toNat - 48

/-- Decimal number denoted by a list of digit characters. -/
def natOfDigits (cs : List Char) : Nat := cs.foldl (fun n c => n * 10 + digitVal c) 0

/-- Model of `new Date(s).getFullYear()` for an ISO `YYYY-MM-DD...` string:
the leading four-digit group. -/
def yearOf (s : String) : Nat := natOfDigits (s.data.take 4)

/-- Model of `new Date(s).getMonth()` for an ISO `YYYY-MM-DD...` string:
the two-digit month group, 0-based as in JavaScript. -/
def monthOf (s : String) : Nat := natOfDigits ((s.data.drop 5).take 2) - 1

/-- `Patient` from `src/types/index.ts`. -/
structure Patient where
  id : String
  name : String
  age : Int
  sex : String
  phoneNumber : String
  location : String
  allergy : String
  pastMedicalHistory : String
  createdAt : String
  updatedAt : String
  clinicId : String
  deriving DecidableEq, Repr

/-- `Visit` from `src/types/index.ts`. -/
structure Visit where
  id : String
  patientId : String
  patientName : String
  complaints : String
  diagnosis : String
  treatment : String
  fee : Int
  followUpDate : Option String
  visitDate : String
  clinicId : String
  deriving DecidableEq, Repr

/-- `Appointment` from `src/types/index.ts`; the status union type is kept
as a string. -/
structure Appointment where
  id : String
  patientId : String
  patientName : String
  phoneNumber : String
  date : String
  time : String
  status : String
  notes : Option String
  clinicId : String
  deriving DecidableEq, Repr

/-- `IncomeRecord` from `src/types/index.ts`. -/
structure IncomeRecord where
  id : String
  visitId : String
  patientName : String
  amount : Int
  date : String
  description : String
  clinicId : String
  deriving DecidableEq, Repr

/-- `ExpenseRecord` from `src/types/index.ts`. -/
structure ExpenseRecord where
  id : String
  amount : Int
  date : String
  description : String
  category : String
  clinicId : String
  deriving DecidableEq, Repr

/-- `Clinic` from `src/types/index.ts`. -/
structure Clinic where
  id : String
  name : String
  address : String
  phoneNumber : String
  isActive : Bool
  createdAt : String
  deriving DecidableEq, Repr

/-- The five collections owned by the Data Store (`DataProvider` state). -/
structure DataState where
  patients : List Patient
  visits : List Visit
  appointments : List Appointment
  incomeRecords : List IncomeRecord
  expenseRecords : List ExpenseRecord
  deriving DecidableEq, Repr

/-- `Omit<Patient, 'id' | 'createdAt' | 'updatedAt'>`: the argument of
`addPatient`. -/
structure PatientInput where
  name : String
  age : Int
  sex : String
  phoneNumber : String
  location : String
  allergy : String
  pastMedicalHistory : String
  clinicId : String
  deriving DecidableEq, Repr

/-- `Omit<Visit, 'id'>`: the argument of `addVisit`. -/
structure VisitInput where
  patientId : String
  patientName : String
  complaints : String
  diagnosis : String
  treatment : String
  fee : Int
  followUpDate : Option String
  visitDate : String
  clinicId : String
  deriving DecidableEq, Repr

/-- `Omit<Appointment, 'id'>`: the argument of `addAppointment`. -/
structure AppointmentInput where
  patientId : String
  patientName : String
  phoneNumber : String
  date : String
  time : String
  status : String
  notes : Option String
  clinicId : String
  deriving DecidableEq, Repr

/-- `Omit<ExpenseRecord, 'id'>`: the argument of `addExpense`. -/
structure ExpenseInput where
  amount : Int
  date : String
  description : String
  category : String
  clinicId : String
  deriving DecidableEq, Repr

/-- `Partial<Patient>`: every field optional; a field that is `none` is
absent from the partial-update object. -/
structure PatientUpdate where
  id : Option String := none
  name : Option String := none
  age : Option Int := none
  sex : Option String := none
  phoneNumber : Option String := none
  location : Option String := none
  allergy : Option String := none
  pastMedicalHistory : Option String := none
  createdAt : Option String := none
  updatedAt : Option String := none
  clinicId : Option String := none
  deriving DecidableEq, Repr

/-- `Partial<Appointment>`. -/
structure AppointmentUpdate where
  id : Option String := none
  patientId : Option String := none
  patientName : Option String := none
  phoneNumber : Option String := none
  date : Option String := none
  time : Option String := none
  status : Option String := none
  notes : Option (Option String) := none
  clinicId : Option String := none
  deriving DecidableEq, Repr

/-- `Partial<ExpenseRecord>`. -/
structure ExpenseUpdate where
  id : Option String := none
  amount : Option Int := none
  date : Option String := none
  description : Option String := none
  category : Option String := none
  clinicId : Option String := none
  deriving DecidableEq, Repr

/-- `addPatient` (DataContext.tsx): build the record with a timestamp id,
`createdAt`/`updatedAt` set to the current ISO time, and append it.
`nowId` stands for `Date.now().toString()` and `nowIso` for
`new Date().toISOString()`. -/
def addPatient (s : DataState) (d : PatientInput) (nowId nowIso : String) : DataState :=
  { s with patients := s.patients ++ [{
      id := nowId, name := d.name, age := d.age, sex := d.sex,
      phoneNumber := d.phoneNumber, location := d.location, allergy := d.allergy,
      pastMedicalHistory := d.pastMedicalHistory, createdAt := nowIso,
      updatedAt := nowIso, clinicId := d.clinicId }] }

/-- The object spread `{ ...patient, ...updates, updatedAt: now }` used by
`updatePatient`: fields present in `updates` override the old values, and
`updatedAt` is then set to the current time regardless. -/
def applyPatientUpdate (p : Patient) (u : PatientUpdate) (now : String) : Patient :=
  { id := u.id.getD p.id, name := u.name.getD p.name, age := u.age.getD p.age,
    sex := u.sex.getD p.sex, phoneNumber := u.phoneNumber.getD p.phoneNumber,
    location := u.location.getD p.location, allergy := u.allergy.getD p.allergy,
    pastMedicalHistory := u.pastMedicalHistory.getD p.pastMedicalHistory,
    createdAt := u.createdAt.getD p.createdAt, updatedAt := now,
    clinicId := u.clinicId.getD p.clinicId }

/-- `updatePatient` (DataContext.tsx): map over the collection, replacing
every record whose id matches. -/
def updatePatient (s : DataState) (id : String) (u : PatientUpdate) (now : String) : DataState :=
  { s with patients := s.patients.map fun p =>
      if p.id == id then applyPatientUpdate p u now else p }

/-- `addVisit` (DataContext.tsx): append the new visit, then append the
derived income record. `nowId` is the `Date.now().toString()` used for the
visit id and `nowId2` the separate `Date.now().toString()` evaluated for
the income-record id. -/
def addVisit (s : DataState) (d : VisitInput) (nowId nowId2 : String) : DataState :=
  let newVisit : Visit := {
    id := nowId, patientId := d.patientId, patientName := d.patientName,
    complaints := d.complaints, diagnosis := d.diagnosis, treatment := d.treatment,
    fee := d.fee, followUpDate := d.followUpDate, visitDate := d.visitDate,
    clinicId := d.clinicId }
  let incomeRecord : IncomeRecord := {
    id := nowId2 ++ "_income", visitId := newVisit.id, patientName := d.patientName,
    amount := d.fee, date := d.visitDate,
    description := "Visit fee - " ++ d.patientName, clinicId := d.clinicId }
  { s with visits := s.visits ++ [newVisit],
           incomeRecords := s.incomeRecords ++ [incomeRecord] }

/-- `addAppointment` (DataContext.tsx). -/
def addAppointment (s : DataState) (d : AppointmentInput) (nowId : String) : DataState :=
  { s with appointments := s.appointments ++ [{
      id := nowId, patientId := d.patientId, patientName := d.patientName,
      phoneNumber := d.phoneNumber, date := d.date, time := d.time,
      status := d.status, notes := d.notes, clinicId := d.clinicId }] }

/-- The spread `{ ...appointment, ...updates }` used by `updateAppointment`. -/
def applyAppointmentUpdate (a : Appointment) (u : AppointmentUpdate) : Appointment :=
  { id := u.id.getD a.id, patientId := u.patientId.getD a.patientId,
    patientName := u.patientName.getD a.patientName,
    phoneNumber := u.phoneNumber.getD a.phoneNumber, date := u.date.getD a.date,
    time := u.time.getD a.time, status := u.status.getD a.status,
    notes := u.notes.getD a.notes, clinicId := u.clinicId.getD a.clinicId }

/-- `updateAppointment` (DataContext.tsx). -/
def updateAppointment (s : DataState) (id : String) (u : AppointmentUpdate) : DataState :=
  { s with appointments := s.appointments.map fun a =>
      if a.id == id then applyAppointmentUpdate a u else a }

/-- `addExpense` (DataContext.tsx). -/
def addExpense (s : DataState) (d : ExpenseInput) (nowId : String) : DataState :=
  { s with expenseRecords := s.expenseRecords ++ [{
      id := nowId, amount := d.amount, date := d.date,
      description := d.description, category := d.category, clinicId := d.clinicId }] }

/-- The spread `{ ...expense, ...updates }` used by `updateExpense`. -/
def applyExpenseUpdate (e : ExpenseRecord) (u : ExpenseUpdate) : ExpenseRecord :=
  { id := u.id.getD e.id, amount := u.amount.getD e.amount, date := u.date.getD e.date,
    description := u.description.getD e.description,
    category := u.category.getD e.category, clinicId := u.clinicId.getD e.clinicId }

/-- `updateExpense` (DataContext.tsx). -/
def updateExpense (s : DataState) (id : String) (u : ExpenseUpdate) : DataState :=
  { s with expenseRecords := s.expenseRecords.map fun e =>
      if e.id == id then applyExpenseUpdate e u else e }

/-- `deleteExpense` (DataContext.tsx): `expenseRecords.filter(e => e.id !== id)`. -/
def deleteExpense (s : DataState) (id : String) : DataState :=
  { s with expenseRecords := s.expenseRecords.filter fun e => e.id != id }

/-- `syncData` (DataContext.tsx): an unimplemented placeholder that only
logs; the state is untouched. -/
def syncData (s : DataState) : DataState := s

/-- One call to a Data Store mutation method, with the wall-clock strings
the call would observe recorded in the constructor. -/
inductive DataOp where
  | addPatientOp (d : PatientInput) (nowId nowIso : String)
  | updatePatientOp (id : String) (u : PatientUpdate) (now : String)
  | addVisitOp (d : VisitInput) (nowId nowId2 : String)
  | addAppointmentOp (d : AppointmentInput) (nowId : String)
  | updateAppointmentOp (id : String) (u : AppointmentUpdate)
  | addExpenseOp (d : ExpenseInput) (nowId : String)
  | updateExpenseOp (id : String) (u : ExpenseUpdate)
  | deleteExpenseOp (id : String)
  | syncOp
  deriving DecidableEq, Repr

/-- Interpretation of one Data Store call. -/
def applyOp (s : DataState) : DataOp → DataState
  | .addPatientOp d nowId nowIso => addPatient s d nowId nowIso
  | .updatePatientOp id u now => updatePatient s id u now
  | .addVisitOp d nowId nowId2 => addVisit s d nowId nowId2
  | .addAppointmentOp d nowId => addAppointment s d nowId
  | .updateAppointmentOp id u => updateAppointment s id u
  | .addExpenseOp d nowId => addExpense s d nowId
  | .updateExpenseOp id u => updateExpense s id u
  | .deleteExpenseOp id => deleteExpense s id
  | .syncOp => syncData s

/-- A sequence of Data Store calls, applied left to right. -/
def applyOps (s : DataState) (ops : List DataOp) : DataState := ops.foldl applyOp s

/-- Whether a Data Store call is an `updatePatient` whose partial-fields
argument contains an `id` field. -/
def opSetsPatientId : DataOp → Bool
  | .updatePatientOp _ u _ => u.id.isSome
  | _ => false

/-- The four counters of the dashboard screen. -/
structure AppointmentCounts where
  today : Nat
  tomorrow : Nat
  thisMonth : Nat
  nextMonth : Nat
  deriving DecidableEq, Repr

/-- `appointmentCounts` from the dashboard screen: appointments are first
scoped to the active clinic, then counted by exact-date match against the
`today` / `tomorrow` strings and by 0-based month-of-year match against
the current month and `(currentMonth + 1) % 12`.  `today` is the ISO date
string of the current day; the current month is its month group. -/
def appointmentCounts (appointments : List Appointment) (activeClinicId : String)
    (today tomorrow : String) : AppointmentCounts :=
  let clinicAppointments := appointments.filter fun apt => apt.clinicId == activeClinicId
  let currentMonth := monthOf today
  let nextMonth := (currentMonth + 1) % 12
  { today := (clinicAppointments.filter fun apt => apt.date == today).length,
    tomorrow := (clinicAppointments.filter fun apt => apt.date == tomorrow).length,
    thisMonth := (clinicAppointments.filter fun apt => monthOf apt.date == currentMonth).length,
    nextMonth := (clinicAppointments.filter fun apt => monthOf apt.date == nextMonth).length }

/-- The ascending order imposed by the comparator of `upcomingAppointments`
(calendar screen): by date, and for equal dates by the string comparison
`a.time.localeCompare(b.time)`. -/
def aptLe (a b : Appointment) : Bool :=
  if a.date = b.date then strLe a.time b.time else strLt a.date b.date

/-- The filter predicate of `upcomingAppointments`:
`apt.date >= today && apt.status === 'scheduled'`. -/
def upcomingPred (today : String) (apt : Appointment) : Bool :=
  strLe today apt.date && apt.status == "scheduled"

/-- `upcomingAppointments` from the calendar screen: active-clinic
appointments with `date >= today` and status `scheduled`, sorted by the
date-then-time comparator, first 10 entries. -/
def upcomingAppointments (appointments : List Appointment) (activeClinicId : String)
    (today : String) : List Appointment :=
  let clinicAppointments := appointments.filter fun apt => apt.clinicId == activeClinicId
  ((clinicAppointments.filter (upcomingPred today)).mergeSort aptLe).take 10

/-- The result of `monthlyData` on the financial screen. -/
structure MonthlyData where
  income : List IncomeRecord
  expenses : List ExpenseRecord
  totalIncome : Int
  totalExpenses : Int
  profit : Int
  deriving DecidableEq, Repr

/-- `monthlyData` from the financial screen: income and expense records
are scoped to the active clinic, filtered by exact match of the 0-based
month and the year of their date against the selected month and year, and
totalled with `reduce((sum, r) => sum + r.amount, 0)`. -/
def monthlyData (incomeRecords : List IncomeRecord) (expenseRecords : List ExpenseRecord)
    (activeClinicId : String) (selectedMonth selectedYear : Nat) : MonthlyData :=
  let clinicIncomeRecords := incomeRecords.filter fun r => r.clinicId == activeClinicId
  let clinicExpenseRecords := expenseRecords.filter fun r => r.clinicId == activeClinicId
  let currentMonthIncome := clinicIncomeRecords.filter fun r =>
    monthOf r.date == selectedMonth && yearOf r.date == selectedYear
  let currentMonthExpenses := clinicExpenseRecords.filter fun r =>
    monthOf r.date == selectedMonth && yearOf r.date == selectedYear
  let totalIncome := currentMonthIncome.foldl (fun sum r => sum + r.amount) 0
  let totalExpenses := currentMonthExpenses.foldl (fun sum r => sum + r.amount) 0
  { income := currentMonthIncome, expenses := currentMonthExpenses,
    totalIncome := totalIncome, totalExpenses := totalExpenses,
    profit := totalIncome - totalExpenses }

/-- In-memory state of the Clinic Store (`ClinicProvider`). -/
structure ClinicState where
  clinics : List Clinic
  activeClinic : Option Clinic
  deriving DecidableEq, Repr

/-- The two persisted keys the Clinic Store reads and writes: the JSON
clinic list under `clinics` and the plain string under `activeClinicId`.
`none` models an absent (never written) key. -/
structure ClinicStorage where
  clinics : Option (List Clinic)
  activeClinicId : Option String
  deriving DecidableEq, Repr

/-- `loadClinics` (ClinicProvider): if a clinic list is stored, use it and
resolve the active clinic from the stored id, falling back to the first
clinic; otherwise synthesize the default clinic, make it active, and
persist both the one-element list and the active-id pointer.  `nowId`
stands for `Date.now().toString()` and `nowIso` for
`new Date().toISOString()`.  Returns the resulting in-memory state
together with the storage after the call. -/
def loadClinics (st : ClinicStorage) (nowId nowIso : String) : ClinicState × ClinicStorage :=
  match st.clinics with
  | some parsedClinics =>
    let active : Option Clinic :=
      match st.activeClinicId with
      | some aid => ((parsedClinics.find? fun c => c.id == aid)).orElse fun _ => parsedClinics.head?
      | none => parsedClinics.head?
    (⟨parsedClinics, active⟩, st)
  | none =>
    let defaultClinic : Clinic := {
      id := nowId, name := "My Clinic", address := "", phoneNumber := "",
      isActive := true, createdAt := nowIso }
    (⟨[defaultClinic], some defaultClinic⟩,
     ⟨some [defaultClinic], some defaultClinic.id⟩)

/-- `setActiveClinic` (ClinicProvider): look the clinic up by id; when
found, switch the in-memory active clinic and persist only the active-id
pointer; when not found, do nothing. -/
def setActiveClinic (cs : ClinicState) (st : ClinicStorage) (clinicId : String) :
    ClinicState × ClinicStorage :=
  match cs.clinics.find? fun c => c.id == clinicId with
  | some clinic => (⟨cs.clinics, some clinic⟩, ⟨st.clinics, some clinicId⟩)
  | none => (cs, st)

/-- JSON values: the model of what `JSON.stringify` writes to storage and
`JSON.parse` reads back on restart. -/
inductive JValue where
  | null
  | bool (b : Bool)
  | num (n : Int)
  | str (s : String)
  | arr (elems : List JValue)
  | obj (fields : List (String × JValue))
  deriving Repr

/-- Look a key up in a JSON object's field list. -/
def jGet (fields : List (String × JValue)) (k : String) : Option JValue :=
  (fields.find? fun p => p.1 == k).map fun p => p.2

/-- Read a JSON value as a string. -/
def asStr : JValue → Option String
  | .str s => some s
  | _ => none

/-- Read a JSON value as a number. -/
def asNum : JValue → Option Int
  | .num n => some n
  | _ => none

/-- An optional field: `JSON.stringify` omits keys whose value is
`undefined`, so a `none` contributes no key at all. -/
def optStrField (k : String) : Option String → List (String × JValue)
  | none => []
  | some s => [(k, .str s)]

/-- JSON encoding of a `Patient`, in the field order of the interface. -/
def encodePatient (p : Patient) : JValue :=
  .obj [("id", .str p.id), ("name", .str p.name), ("age", .num p.age),
        ("sex", .str p.sex), ("phoneNumber", .str p.phoneNumber),
        ("location", .str p.location), ("allergy", .str p.allergy),
        ("pastMedicalHistory", .str p.pastMedicalHistory),
        ("createdAt", .str p.createdAt), ("updatedAt", .str p.updatedAt),
        ("clinicId", .str p.clinicId)]

/-- Typed reading of a JSON value as a `Patient`. -/
def decodePatient : JValue → Option Patient
  | .obj fs => do
    let id ← (jGet fs "id").bind asStr
    let name ← (jGet fs "name").bind asStr
    let age ← (jGet fs "age").bind asNum
    let sex ← (jGet fs "sex").bind asStr
    let phoneNumber ← (jGet fs "phoneNumber").bind asStr
    let location ← (jGet fs "location").bind asStr
    let allergy ← (jGet fs "allergy").bind asStr
    let pastMedicalHistory ← (jGet fs "pastMedicalHistory").bind asStr
    let createdAt ← (jGet fs "createdAt").bind asStr
    let updatedAt ← (jGet fs "updatedAt").bind asStr
    let clinicId ← (jGet fs "clinicId").bind asStr
    pure ⟨id, name, age, sex, phoneNumber, location, allergy,
          pastMedicalHistory, createdAt, updatedAt, clinicId⟩
  | _ => none

/-- JSON encoding of a `Visit`. -/
def encodeVisit (v : Visit) : JValue :=
  .obj ([("id", .str v.id), ("patientId", .str v.patientId),
         ("patientName", .str v.patientName), ("complaints", .str v.complaints),
         ("diagnosis", .str v.diagnosis), ("treatment", .str v.treatment),
         ("fee", .num v.fee)] ++ optStrField "followUpDate" v.followUpDate ++
        [("visitDate", .str v.visitDate), ("clinicId", .str v.clinicId)])

/-- Typed reading of a JSON value as a `Visit`. -/
def decodeVisit : JValue → Option Visit
  | .obj fs => do
    let id ← (jGet fs "id").bind asStr
    let patientId ← (jGet fs "patientId").bind asStr
    let patientName ← (jGet fs "patientName").bind asStr
    let complaints ← (jGet fs "complaints").bind asStr
    let diagnosis ← (jGet fs "diagnosis").bind asStr
    let treatment ← (jGet fs "treatment").bind asStr
    let fee ← (jGet fs "fee").bind asNum
    let followUpDate := (jGet fs "followUpDate").bind asStr
    let visitDate ← (jGet fs "visitDate").bind asStr
    let clinicId ← (jGet fs "clinicId").bind asStr
    pure ⟨id, patientId, patientName, complaints, diagnosis, treatment,
          fee, followUpDate, visitDate, clinicId⟩
  | _ => none

/-- JSON encoding of an `Appointment`. -/
def encodeAppointment (a : Appointment) : JValue :=
  .obj ([("id", .str a.id), ("patientId", .str a.patientId),
         ("patientName", .str a.patientName), ("phoneNumber", .str a.phoneNumber),
         ("date", .str a.date), ("time", .str a.time), ("status", .str a.status)] ++
        optStrField "notes" a.notes ++ [("clinicId", .str a.clinicId)])

/-- Typed reading of a JSON value as an `Appointment`. -/
def decodeAppointment : JValue → Option Appointment
  | .obj fs => do
    let id ← (jGet fs "id").bind asStr
    let patientId ← (jGet fs "patientId").bind asStr
    let patientName ← (jGet fs "patientName").bind asStr
    let phoneNumber ← (jGet fs "phoneNumber").bind asStr
    let date ← (jGet fs "date").bind asStr
    let time ← (jGet fs "time").bind asStr
    let status ← (jGet fs "status").bind asStr
    let notes := (jGet fs "notes").bind asStr
    let clinicId ← (jGet fs "clinicId").bind asStr
    pure ⟨id, patientId, patientName, phoneNumber, date, time, status, notes, clinicId⟩
  | _ => none

/-- JSON encoding of an `IncomeRecord`. -/
def encodeIncomeRecord (r : IncomeRecord) : JValue :=
  .obj [("id", .str r.id), ("visitId", .str r.visitId),
        ("patientName", .str r.patientName), ("amount", .num r.amount),
        ("date", .str r.date), ("description", .str r.description),
        ("clinicId", .str r.clinicId)]

/-- Typed reading of a JSON value as an `IncomeRecord`. -/
def decodeIncomeRecord : JValue → Option IncomeRecord
  | .obj fs => do
    let id ← (jGet fs "id").bind asStr
    let visitId ← (jGet fs "visitId").bind asStr
    let patientName ← (jGet fs "patientName").bind asStr
    let amount ← (jGet fs "amount").bind asNum
    let date ← (jGet fs "date").bind asStr
    let description ← (jGet fs "description").bind asStr
    let clinicId ← (jGet fs "clinicId").bind asStr
    pure ⟨id, visitId, patientName, amount, date, description, clinicId⟩
  | _ => none

/-- JSON encoding of an `ExpenseRecord`. -/
def encodeExpenseRecord (r : ExpenseRecord) : JValue :=
  .obj [("id", .str r.id), ("amount", .num r.amount), ("date", .str r.date),
        ("description", .str r.description), ("category", .str r.category),
        ("clinicId", .str r.clinicId)]

/-- Typed reading of a JSON value as an `ExpenseRecord`. -/
def decodeExpenseRecord : JValue → Option ExpenseRecord
  | .obj fs => do
    let id ← (jGet fs "id").bind asStr
    let amount ← (jGet fs "amount").bind asNum
    let date ← (jGet fs "date").bind asStr
    let description ← (jGet fs "description").bind asStr
    let category ← (jGet fs "category").bind asStr
    let clinicId ← (jGet fs "clinicId").bind asStr
    pure ⟨id, amount, date, description, category, clinicId⟩
  | _ => none

/-- Element-wise typed reading of a JSON array. -/
def decodeArr {α : Type} (dec : JValue → Option α) : List JValue → Option (List α)
  | [] => some []
  | v :: vs =>
    match dec v, decodeArr dec vs with
    | some a, some as => some (a :: as)
    | _, _ => none

/-- The five Data Store keys of the key-value storage
(`patients`, `visits`, `appointments`, `incomeRecords`, `expenseRecords`);
`none` models a key that was never written. -/
structure DataStorage where
  patients : Option JValue := none
  visits : Option JValue := none
  appointments : Option JValue := none
  incomeRecords : Option JValue := none
  expenseRecords : Option JValue := none

/-- `saveData` applied to each collection (DataContext.tsx): every key is
overwritten with the JSON array of its collection. -/
def saveCollections (s : DataState) : DataStorage :=
  { patients := some (.arr (s.patients.map encodePatient)),
    visits := some (.arr (s.visits.map encodeVisit)),
    appointments := some (.arr (s.appointments.map encodeAppointment)),
    incomeRecords := some (.arr (s.incomeRecords.map encodeIncomeRecord)),
    expenseRecords := some (.arr (s.expenseRecords.map encodeExpenseRecord)) }

/-- One stored collection as `loadData` reads it: a missing key leaves the
initial empty collection in place; a stored JSON array is read back
element-wise. -/
def loadCollection {α : Type} (dec : JValue → Option α) : Option JValue → List α
  | some (.arr vs) => (decodeArr dec vs).getD []
  | _ => []

/-- `loadData` (DataContext.tsx): read all five keys, keeping `[]` for any
absent one. -/
def loadData (st : DataStorage) : DataState :=
  { patients := loadCollection decodePatient st.patients,
    visits := loadCollection decodeVisit st.visits,
    appointments := loadCollection decodeAppointment st.appointments,
    incomeRecords := loadCollection decodeIncomeRecord st.incomeRecords,
    expenseRecords := loadCollection decodeExpenseRecord st.expenseRecords }

/-- Unfolding of `charListLt` on two nonempty lists, phrased through the
linear order on characters. -/
theorem charListLt_cons_iff {x y : Char} {xs ys : List Char} :
    charListLt (x :: xs) (y :: ys) = true ↔ (x < y ∨ (x = y ∧ charListLt xs ys = true)) := by
  rcases lt_trichotomy x y with h | h | h
  · simp [charListLt, h]
  · subst h
    simp [charListLt, lt_irrefl]
  · have h1 : ¬ x < y := not_lt.mpr (le_of_lt h)
    have h2 : x ≠ y := ne_of_gt h
    simp [charListLt, h1, h, h2]

/-- `charListLt` is transitive. -/
theorem charListLt_trans : ∀ {a b c : List Char},
    charListLt a b = true → charListLt b c = true → charListLt a c = true := by
  intro a
  induction a with
  | nil =>
    intro b c hab hbc
    cases b with
    | nil => simp [charListLt] at hab
    | cons y ys =>
      cases c with
      | nil => simp [charListLt] at hbc
      | cons z zs => simp [charListLt]
  | cons x xs ih =>
    intro b c hab hbc
    cases b with
    | nil => simp [charListLt] at hab
    | cons y ys =>
      cases c with
      | nil => simp [charListLt] at hbc
      | cons z zs =>
        rw [charListLt_cons_iff] at hab hbc ⊢
        rcases hab with h | ⟨he, hl⟩
        · rcases hbc with h' | ⟨he', _⟩
          · exact Or.inl (lt_trans h h')
          · exact Or.inl (he' ▸ h)
        · rcases hbc with h' | ⟨he', hl'⟩
          · exact Or.inl (he ▸ h')
          · exact Or.inr ⟨he.trans he', ih hl hl'⟩

/-- `charListLt` is asymmetric. -/
theorem charListLt_asymm : ∀ {a b : List Char},
    charListLt a b = true → charListLt b a = false := by
  intro a
  induction a with
  | nil =>
    intro b h
    cases b with
    | nil => simp [charListLt] at h
    | cons y ys => simp [charListLt]
  | cons x xs ih =>
    intro b h
    cases b with
    | nil => simp [charListLt] at h
    | cons y ys =>
      rw [charListLt_cons_iff] at h
      rw [Bool.eq_false_iff, Ne, charListLt_cons_iff]
      rcases h with h | ⟨he, hl⟩
      · rintro (h' | ⟨he', _⟩)
        · exact absurd h (not_lt.mpr (le_of_lt h'))
        · exact absurd (he' ▸ h) (lt_irrefl _)
      · rintro (h' | ⟨he', hl'⟩)
        · exact absurd (he ▸ h') (lt_irrefl _)
        · exact absurd hl' (by simp [ih hl])

/-- `charListLt` compares any two distinct lists one way or the other. -/
theorem charListLt_conn : ∀ {a b : List Char},
    a ≠ b → charListLt a b = true ∨ charListLt b a = true := by
  intro a
  induction a with
  | nil =>
    intro b hne
    cases b with
    | nil => exact absurd rfl hne
    | cons y ys => exact Or.inl (by simp [charListLt])
  | cons x xs ih =>
    intro b hne
    cases b with
    | nil => exact Or.inr (by simp [charListLt])
    | cons y ys =>
      rcases lt_trichotomy x y with h | h | h
      · exact Or.inl (charListLt_cons_iff.mpr (Or.inl h))
      · subst h
        have hne' : xs ≠ ys := fun he => hne (by rw [he])
        rcases ih hne' with h' | h'
        · exact Or.inl (charListLt_cons_iff.mpr (Or.inr ⟨rfl, h'⟩))
        · exact Or.inr (charListLt_cons_iff.mpr (Or.inr ⟨rfl, h'⟩))
      · exact Or.inr (charListLt_cons_iff.mpr (Or.inl h))

/-- `strLt` is transitive. -/
theorem strLt_trans {a b c : String} (h1 : strLt a b = true) (h2 : strLt b c = true) :
    strLt a c = true := charListLt_trans h1 h2

/-- `strLt` is asymmetric. -/
theorem strLt_asymm {a b : String} (h : strLt a b = true) : strLt b a = false :=
  charListLt_asymm h

/-- Distinct strings compare one way or the other under `strLt`. -/
theorem strLt_conn {a b : String} (h : a ≠ b) : strLt a b = true ∨ strLt b a = true :=
  charListLt_conn fun hd => h (String.ext hd)

/-- `strLe` is total. -/
theorem strLe_total (a b : String) : (strLe a b || strLe b a) = true := by
  simp only [strLe, Bool.or_eq_true, Bool.not_eq_true']
  by_cases h : strLt b a = true
  · exact Or.inr (strLt_asymm h)
  · exact Or.inl (by revert h; cases strLt b a <;> simp)

/-- `strLe` is transitive. -/
theorem strLe_trans {a b c : String} (h1 : strLe a b = true) (h2 : strLe b c = true) :
    strLe a c = true := by
  simp only [strLe, Bool.not_eq_true'] at *
  by_contra hc
  have hc' : strLt c a = true := by revert hc; cases strLt c a <;> simp
  rcases eq_or_ne b a with he | hne
  · rw [he] at h2
    exact absurd hc' (by simp [h2])
  · rcases strLt_conn hne with h | h
    · exact absurd h (by simp [h1])
    · exact absurd (strLt_trans hc' h) (by simp [h2])

/-- The comparator order on appointments is transitive. -/
theorem aptLe_trans (a b c : Appointment) :
    aptLe a b = true → aptLe b c = true → aptLe a c = true := by
  unfold aptLe
  by_cases hab : a.date = b.date <;> by_cases hbc : b.date = c.date
  · have hac : a.date = c.date := hab.trans hbc
    rw [if_pos hab, if_pos hbc, if_pos hac]
    exact strLe_trans
  · have hac : ¬ a.date = c.date := fun e => hbc (hab.symm.trans e)
    rw [if_pos hab, if_neg hbc, if_neg hac, hab]
    exact fun _ h2 => h2
  · have hac : ¬ a.date = c.date := fun e => hab (e.trans hbc.symm)
    rw [if_neg hab, if_pos hbc, if_neg hac, hbc]
    exact fun h1 _ => h1
  · rw [if_neg hab, if_neg hbc]
    intro h1 h2
    by_cases hac : a.date = c.date
    · rw [if_pos hac]
      rw [hac] at h1
      have hasym := strLt_asymm h2
      rw [h1] at hasym
      exact absurd hasym (by simp)
    · rw [if_neg hac]
      exact strLt_trans h1 h2

/-- The comparator order on appointments is total. -/
theorem aptLe_total (a b : Appointment) : (aptLe a b || aptLe b a) = true := by
  unfold aptLe
  by_cases h : a.date = b.date
  · have h' : b.date = a.date := h.symm
    rw [if_pos h, if_pos h']
    exact strLe_total _ _
  · have h' : ¬ b.date = a.date := fun e => h e.symm
    rw [if_neg h, if_neg h']
    rcases strLt_conn h with hl | hl <;> simp [hl]

/-- `reduce((sum, r) => sum + f(r), i)` is `i` plus the sum of the mapped
values. -/
theorem foldl_add_map {α : Type} (f : α → Int) (l : List α) (i : Int) :
    l.foldl (fun sum r => sum + f r) i = i + (l.map f).sum := by
  induction l generalizing i with
  | nil => simp
  | cons x xs ih => simp [List.foldl_cons, ih, add_assoc]

/-- Reading an encoded array element-wise restores the original list,
given that each element round-trips. -/
theorem decodeArr_map {α : Type} (dec : JValue → Option α) (enc : α → JValue)
    (h : ∀ x, dec (enc x) = some x) : ∀ l : List α, decodeArr dec (l.map enc) = some l := by
  intro l
  induction l with
  | nil => rfl
  | cons x xs ih => simp [decodeArr, h x, ih]

/-- A `Patient` survives the JSON round trip. -/
theorem decodePatient_encodePatient (p : Patient) :
    decodePatient (encodePatient p) = some p := rfl

/-- A `Visit` survives the JSON round trip (with or without its optional
follow-up date). -/
theorem decodeVisit_encodeVisit (v : Visit) : decodeVisit (encodeVisit v) = some v := by
  cases v with
  | mk id patientId patientName complaints diagnosis treatment fee followUpDate visitDate clinicId =>
    cases followUpDate <;> rfl

/-- An `Appointment` survives the JSON round trip (with or without its
optional notes). -/
theorem decodeAppointment_encodeAppointment (a : Appointment) :
    decodeAppointment (encodeAppointment a) = some a := by
  cases a with
  | mk id patientId patientName phoneNumber date time status notes clinicId =>
    cases notes <;> rfl

/-- An `IncomeRecord` survives the JSON round trip. -/
theorem decodeIncomeRecord_encodeIncomeRecord (r : IncomeRecord) :
    decodeIncomeRecord (encodeIncomeRecord r) = some r := rfl

/-- An `ExpenseRecord` survives the JSON round trip. -/
theorem decodeExpenseRecord_encodeExpenseRecord (r : ExpenseRecord) :
    decodeExpenseRecord (encodeExpenseRecord r) = some r := rfl

/-- Any single Data Store call, except an `updatePatient` whose update
object carries an `id` field, extends the sequence of patient ids without
rewriting the existing ones. -/
theorem applyOp_ids (s : DataState) (op : DataOp) (h : opSetsPatientId op = false) :
    ∃ r, (applyOp s op).patients.map Patient.id = s.patients.map Patient.id ++ r := by
  cases op with
  | addPatientOp d nowId nowIso => exact ⟨[nowId], by simp [applyOp, addPatient]⟩
  | updatePatientOp id u now =>
    refine ⟨[], ?_⟩
    rw [List.append_nil]
    simp only [applyOp, updatePatient, List.map_map]
    apply List.map_congr_left
    intro p _
    simp only [Function.comp]
    split
    · cases hu : u.id with
      | none => simp [applyPatientUpdate, hu]
      | some x =>
        exfalso
        simp [opSetsPatientId, hu] at h
    · rfl
  | addVisitOp d n1 n2 => exact ⟨[], by simp [applyOp, addVisit]⟩
  | addAppointmentOp d n => exact ⟨[], by simp [applyOp, addAppointment]⟩
  | updateAppointmentOp id u => exact ⟨[], by simp [applyOp, updateAppointment]⟩
  | addExpenseOp d n => exact ⟨[], by simp [applyOp, addExpense]⟩
  | updateExpenseOp id u => exact ⟨[], by simp [applyOp, updateExpense]⟩
  | deleteExpenseOp id => exact ⟨[], by simp [applyOp, deleteExpense]⟩
  | syncOp => exact ⟨[], by simp [applyOp, syncData]⟩

/-- Claim C1: every call to `addVisit` appends exactly one income record,
whose `amount` is the new visit's fee, whose `visitId` is the new visit's
id, whose `clinicId` is the visit's clinic, and whose description is
`"Visit fee - "` followed by the visit's patient name; the visit itself is
appended to the visit collection and the remaining collections (patients,
appointments, expenses) neither gain nor lose records. -/
theorem addVisit_spec (s : DataState) (d : VisitInput) (nowId nowId2 : String) :
    ∃ nv : Visit, ∃ inc : IncomeRecord,
      (addVisit s d nowId nowId2).visits = s.visits ++ [nv] ∧
      (addVisit s d nowId nowId2).incomeRecords = s.incomeRecords ++ [inc] ∧
      inc.amount = nv.fee ∧ inc.visitId = nv.id ∧ inc.clinicId = nv.clinicId ∧
      inc.description = "Visit fee - " ++ nv.patientName ∧
      (addVisit s d nowId nowId2).patients = s.patients ∧
      (addVisit s d nowId nowId2).appointments = s.appointments ∧
      (addVisit s d nowId nowId2).expenseRecords = s.expenseRecords :=
  ⟨_, _, rfl, rfl, rfl, rfl, rfl, rfl, rfl, rfl, rfl⟩

/-- Claim C2, counterexample to the original statement: with two patient records
sharing id `"1"` and an update performed at a time equal to the stored
`updatedAt` (the same millisecond), `updatePatient` rewrites the second
record as well, and the first record's `updatedAt` does not strictly
increase. -/
theorem updatePatient_cex :
    (updatePatient ⟨[⟨"1", "Alice", 30, "Female", "p", "l", "", "", "T0", "T0", "c"⟩,
                     ⟨"1", "Bob", 40, "Male", "q", "m", "", "", "T0", "T0", "c"⟩],
        [], [], [], []⟩ "1"
        ⟨none, some "X", none, none, none, none, none, none, none, none, none⟩
        "T0").patients =
      [⟨"1", "X", 30, "Female", "p", "l", "", "", "T0", "T0", "c"⟩,
       ⟨"1", "X", 40, "Male", "q", "m", "", "", "T0", "T0", "c"⟩] ∧
    (⟨"1", "X", 40, "Male", "q", "m", "", "", "T0", "T0", "c"⟩ : Patient) ≠
      ⟨"1", "Bob", 40, "Male", "q", "m", "", "", "T0", "T0", "c"⟩ ∧
    strLt "T0" "T0" = false := by decide

/-- Claim C2 (amended): if no other patient record shares P's id and the
update happens at a time strictly later than P's `updatedAt`, then
`updatePatient(P.id, u)` rewrites only P, leaves every field of P absent
from `u` (other than `updatedAt`) unchanged, strictly increases P's
`updatedAt`, and leaves the other four collections untouched. -/
theorem updatePatient_frame (l₁ l₂ : List Patient) (p : Patient) (u : PatientUpdate)
    (now : String) (vs : List Visit) (aps : List Appointment)
    (inc : List IncomeRecord) (es : List ExpenseRecord)
    (hid : ∀ q ∈ l₁ ++ l₂, q.id ≠ p.id)
    (ht : strLt p.updatedAt now = true) :
    ∃ p' : Patient,
      (updatePatient ⟨l₁ ++ p :: l₂, vs, aps, inc, es⟩ p.id u now).patients = l₁ ++ p' :: l₂ ∧
      strLt p.updatedAt p'.updatedAt = true ∧
      (u.id = none → p'.id = p.id) ∧
      (u.name = none → p'.name = p.name) ∧
      (u.age = none → p'.age = p.age) ∧
      (u.sex = none → p'.sex = p.sex) ∧
      (u.phoneNumber = none → p'.phoneNumber = p.phoneNumber) ∧
      (u.location = none → p'.location = p.location) ∧
      (u.allergy = none → p'.allergy = p.allergy) ∧
      (u.pastMedicalHistory = none → p'.pastMedicalHistory = p.pastMedicalHistory) ∧
      (u.createdAt = none → p'.createdAt = p.createdAt) ∧
      (u.clinicId = none → p'.clinicId = p.clinicId) ∧
      (updatePatient ⟨l₁ ++ p :: l₂, vs, aps, inc, es⟩ p.id u now).visits = vs ∧
      (updatePatient ⟨l₁ ++ p :: l₂, vs, aps, inc, es⟩ p.id u now).appointments = aps ∧
      (updatePatient ⟨l₁ ++ p :: l₂, vs, aps, inc, es⟩ p.id u now).incomeRecords = inc ∧
      (updatePatient ⟨l₁ ++ p :: l₂, vs, aps, inc, es⟩ p.id u now).expenseRecords = es := by
  have hmap : ∀ (l : List Patient), (∀ q ∈ l, q.id ≠ p.id) →
      (l.map fun q => if q.id == p.id then applyPatientUpdate q u now else q) = l := by
    intro l hl
    induction l with
    | nil => rfl
    | cons q qs ih =>
      simp only [List.map_cons]
      rw [if_neg (by simpa using hl q (List.mem_cons_self q qs)),
        ih fun r hr => hl r (List.mem_cons_of_mem q hr)]
  refine ⟨applyPatientUpdate p u now, ?_, ht, ?_, ?_, ?_, ?_, ?_, ?_, ?_, ?_, ?_, ?_,
    rfl, rfl, rfl, rfl⟩
  · show ((l₁ ++ p :: l₂).map fun q => if q.id == p.id then applyPatientUpdate q u now else q) =
      l₁ ++ applyPatientUpdate p u now :: l₂
    rw [List.map_append, List.map_cons, if_pos (by simp),
      hmap l₁ fun q hq => hid q (List.mem_append_left l₂ hq),
      hmap l₂ fun q hq => hid q (List.mem_append_right l₁ hq)]
  all_goals intro h
  all_goals simp [applyPatientUpdate, h]

/-- Claim C2, witness: a concrete single-patient collection, a name-only
update and a strictly later clock. -/
theorem updatePatient_frame_witness :
    ∃ p' : Patient,
      (updatePatient ⟨[⟨"1", "A", 30, "F", "p", "l", "x", "y", "T0", "T0", "c"⟩],
          [], [], [], []⟩ "1"
          ⟨none, some "X", none, none, none, none, none, none, none, none, none⟩
          "T1").patients = [p'] ∧ strLt "T0" p'.updatedAt = true := by
  obtain ⟨p', h1, h2, -⟩ :=
    updatePatient_frame [] [] ⟨"1", "A", 30, "F", "p", "l", "x", "y", "T0", "T0", "c"⟩
      ⟨none, some "X", none, none, none, none, none, none, none, none, none⟩
      "T1" [] [] [] [] (by simp) (by decide)
  exact ⟨p', h1, h2⟩

/-- Claim C3, counterexample to the original statement: a single
`updatePatient` call whose partial-fields argument contains `id` replaces
the stored patient's id. -/
theorem patient_id_cex :
    (applyOps ⟨[⟨"1", "Alice", 30, "Female", "p", "l", "", "", "T0", "T0", "c"⟩],
        [], [], [], []⟩
      [DataOp.updatePatientOp "1"
        ⟨some "2", none, none, none, none, none, none, none, none, none, none⟩ "T1"]).patients.map
      Patient.id = ["2"] ∧ (["2"] : List String) ≠ ["1"] := by decide

/-- Claim C3 (amended): under every sequence of Data Store calls in which
no `updatePatient` call's partial-fields argument contains an `id` field,
the ids of the already-present patients are preserved, in place; new ids
are only appended after them. -/
theorem patient_ids_preserved (s : DataState) (ops : List DataOp)
    (h : ∀ op ∈ ops, opSetsPatientId op = false) :
    ∃ r, (applyOps s ops).patients.map Patient.id = s.patients.map Patient.id ++ r := by
  induction ops generalizing s with
  | nil => exact ⟨[], by simp [applyOps]⟩
  | cons op ops ih =>
    obtain ⟨r₁, h₁⟩ := applyOp_ids s op (h op (List.mem_cons_self op ops))
    obtain ⟨r₂, h₂⟩ := ih (applyOp s op) fun o ho => h o (List.mem_cons_of_mem op ho)
    refine ⟨r₁ ++ r₂, ?_⟩
    have hfold : applyOps s (op :: ops) = applyOps (applyOp s op) ops := rfl
    rw [hfold, h₂, h₁, List.append_assoc]

/-- Claim C3, witness: an expense insertion followed by an id-free patient
update leave the stored patient's id in place. -/
theorem patient_ids_preserved_witness :
    ∃ r, (applyOps ⟨[⟨"1", "Alice", 30, "Female", "p", "l", "", "", "T0", "T0", "c"⟩],
        [], [], [], []⟩
      [DataOp.addExpenseOp ⟨5, "2024-01-02", "rent", "Rent", "c"⟩ "9",
       DataOp.updatePatientOp "1"
        ⟨none, some "X", none, none, none, none, none, none, none, none, none⟩ "T1"]).patients.map
      Patient.id =
      (⟨[⟨"1", "Alice", 30, "Female", "p", "l", "", "", "T0", "T0", "c"⟩],
        [], [], [], []⟩ : DataState).patients.map Patient.id ++ r :=
  patient_ids_preserved _ _ (by decide)

/-- Claim C4: for any selected month and year and any record collections,
the monthly financial summary satisfies `profit = totalIncome -
totalExpenses`, and each total is the sum of `amount` over exactly the
active-clinic records whose date matches the selected month and year. -/
theorem monthlyData_spec (incomeRecords : List IncomeRecord)
    (expenseRecords : List ExpenseRecord) (activeClinicId : String) (m y : Nat) :
    (monthlyData incomeRecords expenseRecords activeClinicId m y).profit =
      (monthlyData incomeRecords expenseRecords activeClinicId m y).totalIncome -
      (monthlyData incomeRecords expenseRecords activeClinicId m y).totalExpenses ∧
    (monthlyData incomeRecords expenseRecords activeClinicId m y).totalIncome =
      ((incomeRecords.filter fun r => r.clinicId == activeClinicId &&
          (monthOf r.date == m && yearOf r.date == y)).map IncomeRecord.amount).sum ∧
    (monthlyData incomeRecords expenseRecords activeClinicId m y).totalExpenses =
      ((expenseRecords.filter fun r => r.clinicId == activeClinicId &&
          (monthOf r.date == m && yearOf r.date == y)).map ExpenseRecord.amount).sum := by
  refine ⟨rfl, ?_, ?_⟩
  · show (((incomeRecords.filter fun r => r.clinicId == activeClinicId).filter fun r =>
        monthOf r.date == m && yearOf r.date == y).foldl (fun sum r => sum + r.amount) 0) = _
    rw [foldl_add_map IncomeRecord.amount, List.filter_filter, zero_add]
    refine congrArg List.sum (congrArg (List.map IncomeRecord.amount) (List.filter_congr ?_))
    intro r _
    exact Bool.and_comm _ _
  · show (((expenseRecords.filter fun r => r.clinicId == activeClinicId).filter fun r =>
        monthOf r.date == m && yearOf r.date == y).foldl (fun sum r => sum + r.amount) 0) = _
    rw [foldl_add_map ExpenseRecord.amount, List.filter_filter, zero_add]
    refine congrArg List.sum (congrArg (List.map ExpenseRecord.amount) (List.filter_congr ?_))
    intro r _
    exact Bool.and_comm _ _

/-- Claim C5, counterexample to the original statement: with two
active-clinic appointments dated today (2024-05-15) and one dated in a
different calendar month (2024-06-20), the dashboard reports `today = 2`
but `thisMonth = 2`, not 3: the June appointment's month-of-year differs
from May's, so it is not counted. -/
theorem appointmentCounts_cex :
    (appointmentCounts
        [⟨"a1", "p", "N", "ph", "2024-05-15", "09:00 AM", "scheduled", none, "c"⟩,
         ⟨"a2", "p", "N", "ph", "2024-05-15", "10:00 AM", "scheduled", none, "c"⟩,
         ⟨"a3", "p", "N", "ph", "2024-06-20", "09:00 AM", "scheduled", none, "c"⟩]
        "c" "2024-05-15" "2024-05-16").today = 2 ∧
    (appointmentCounts
        [⟨"a1", "p", "N", "ph", "2024-05-15", "09:00 AM", "scheduled", none, "c"⟩,
         ⟨"a2", "p", "N", "ph", "2024-05-15", "10:00 AM", "scheduled", none, "c"⟩,
         ⟨"a3", "p", "N", "ph", "2024-06-20", "09:00 AM", "scheduled", none, "c"⟩]
        "c" "2024-05-15" "2024-05-16").thisMonth = 2 ∧ (2 : Nat) ≠ 3 := by decide

/-- Claim C5 (amended): with two active-clinic appointments dated today
and one dated in a different calendar month whose month-of-year equals the
current month (the same month of a different year), the dashboard counters
report `today = 2` and `thisMonth = 3`, the latter because the month
filter compares the month-of-year only. -/
theorem appointmentCounts_amended (a b c : Appointment) (activeId today tomorrow : String)
    (hca : a.clinicId = activeId) (hcb : b.clinicId = activeId) (hcc : c.clinicId = activeId)
    (hda : a.date = today) (hdb : b.date = today) (hdc : c.date ≠ today)
    (hmon : monthOf c.date = monthOf today) (_hyr : yearOf c.date ≠ yearOf today) :
    (appointmentCounts [a, b, c] activeId today tomorrow).today = 2 ∧
    (appointmentCounts [a, b, c] activeId today tomorrow).thisMonth = 3 := by
  constructor
  · simp [appointmentCounts, hca, hcb, hcc, hda, hdb, hdc]
  · simp [appointmentCounts, hca, hcb, hcc, hda, hdb, hmon]

/-- Claim C5, witness: today 2024-05-15 with the aliasing third
appointment dated 2023-05-20 (May of the previous year). -/
theorem appointmentCounts_amended_witness :
    (appointmentCounts
        [⟨"a1", "p", "N", "ph", "2024-05-15", "09:00 AM", "scheduled", none, "c"⟩,
         ⟨"a2", "p", "N", "ph", "2024-05-15", "10:00 AM", "scheduled", none, "c"⟩,
         ⟨"a3", "p", "N", "ph", "2023-05-20", "09:00 AM", "scheduled", none, "c"⟩]
        "c" "2024-05-15" "2024-05-16").today = 2 ∧
    (appointmentCounts
        [⟨"a1", "p", "N", "ph", "2024-05-15", "09:00 AM", "scheduled", none, "c"⟩,
         ⟨"a2", "p", "N", "ph", "2024-05-15", "10:00 AM", "scheduled", none, "c"⟩,
         ⟨"a3", "p", "N", "ph", "2023-05-20", "09:00 AM", "scheduled", none, "c"⟩]
        "c" "2024-05-15" "2024-05-16").thisMonth = 3 :=
  appointmentCounts_amended _ _ _ _ _ _ rfl rfl rfl rfl rfl (by decide) (by decide) (by decide)

/-- Claim C6: the upcoming-appointments list holds only active-clinic
appointments with status `scheduled` and date at or after today, it is
sorted ascending by date and, for equal dates, by string comparison of the
time field, its length is the minimum of 10 and the number of matching
appointments, and it is an initial segment of the sorted sequence of all
matching appointments (everything it omits sorts at or after everything it
keeps). -/
theorem upcomingAppointments_spec (appointments : List Appointment)
    (activeClinicId today : String) :
    (∀ a ∈ upcomingAppointments appointments activeClinicId today,
        a.clinicId = activeClinicId ∧ a.status = "scheduled" ∧ strLe today a.date = true) ∧
    List.Pairwise (fun a b => aptLe a b = true)
      (upcomingAppointments appointments activeClinicId today) ∧
    (upcomingAppointments appointments activeClinicId today).length =
      min 10 (((appointments.filter fun apt => apt.clinicId == activeClinicId).filter
        (upcomingPred today)).length) ∧
    ∃ rest,
      ((appointments.filter fun apt => apt.clinicId == activeClinicId).filter
          (upcomingPred today)).mergeSort aptLe =
        upcomingAppointments appointments activeClinicId today ++ rest ∧
      (upcomingAppointments appointments activeClinicId today ++ rest).Perm
        ((appointments.filter fun apt => apt.clinicId == activeClinicId).filter
          (upcomingPred today)) ∧
      ∀ a ∈ upcomingAppointments appointments activeClinicId today, ∀ b ∈ rest,
        aptLe a b = true := by
  have hunf : upcomingAppointments appointments activeClinicId today =
      (((appointments.filter fun apt => apt.clinicId == activeClinicId).filter
        (upcomingPred today)).mergeSort aptLe).take 10 := rfl
  set m := (appointments.filter fun apt => apt.clinicId == activeClinicId).filter
    (upcomingPred today) with hm
  set srt := m.mergeSort aptLe with hsrt
  have hpw : List.Pairwise (fun a b => aptLe a b = true) srt :=
    List.sorted_mergeSort aptLe_trans aptLe_total m
  have hperm : srt.Perm m := List.mergeSort_perm m aptLe
  have htad : srt.take 10 ++ srt.drop 10 = srt := List.take_append_drop 10 srt
  refine ⟨?_, ?_, ?_, srt.drop 10, ?_, ?_, ?_⟩
  · intro a ha
    rw [hunf] at ha
    have h1 : a ∈ srt := List.Sublist.mem ha (List.take_sublist _ _)
    have h2 : a ∈ m := hperm.mem_iff.mp h1
    rw [hm] at h2
    have h3 := List.mem_filter.mp h2
    have h4 := List.mem_filter.mp h3.1
    have h5 : a.clinicId = activeClinicId := by
      have := h4.2
      simpa using this
    have h6 := h3.2
    simp only [upcomingPred, Bool.and_eq_true, beq_iff_eq] at h6
    exact ⟨h5, h6.2, h6.1⟩
  · rw [hunf]
    exact List.Pairwise.sublist (List.take_sublist _ _) hpw
  · rw [hunf, List.length_take, hperm.length_eq]
  · rw [hunf]; exact htad.symm
  · rw [hunf, htad]; exact hperm
  · intro a ha b hb
    rw [hunf] at ha
    have hpw2 : List.Pairwise (fun a b => aptLe a b = true) (srt.take 10 ++ srt.drop 10) := by
      rw [htad]; exact hpw
    exact (List.pairwise_append.mp hpw2).2.2 a ha b hb

/-- Claim C7: starting from storage holding no clinic list, `load()`
produces exactly one clinic, named "My Clinic" with empty address and
phone and an active flag, makes it the active clinic, and persists the
one-element list together with its id as the active-clinic pointer. -/
theorem loadClinics_default (st : ClinicStorage) (nowId nowIso : String)
    (h : st.clinics = none) :
    ∃ c : Clinic,
      (loadClinics st nowId nowIso).1.clinics = [c] ∧
      c.name = "My Clinic" ∧ c.address = "" ∧ c.phoneNumber = "" ∧ c.isActive = true ∧
      (loadClinics st nowId nowIso).1.activeClinic = some c ∧
      (loadClinics st nowId nowIso).2.clinics = some [c] ∧
      (loadClinics st nowId nowIso).2.activeClinicId = some c.id := by
  cases st with
  | mk cl aid =>
    cases h
    exact ⟨_, rfl, rfl, rfl, rfl, rfl, rfl, rfl, rfl⟩

/-- Claim C7, witness: entirely empty storage. -/
theorem loadClinics_default_witness :
    ∃ c : Clinic,
      (loadClinics ⟨none, none⟩ "123" "T").1.clinics = [c] ∧
      c.name = "My Clinic" ∧ c.address = "" ∧ c.phoneNumber = "" ∧ c.isActive = true ∧
      (loadClinics ⟨none, none⟩ "123" "T").1.activeClinic = some c ∧
      (loadClinics ⟨none, none⟩ "123" "T").2.clinics = some [c] ∧
      (loadClinics ⟨none, none⟩ "123" "T").2.activeClinicId = some c.id :=
  loadClinics_default ⟨none, none⟩ "123" "T" rfl

/-- Claim C8: `setActiveClinic` with an id matching no stored clinic
changes neither the in-memory state (active clinic and clinic list) nor
the storage: a silent no-op. -/
theorem setActiveClinic_unknown (cs : ClinicState) (st : ClinicStorage) (clinicId : String)
    (h : ∀ c ∈ cs.clinics, c.id ≠ clinicId) :
    setActiveClinic cs st clinicId = (cs, st) := by
  have hf : (cs.clinics.find? fun c => c.id == clinicId) = none :=
    List.find?_eq_none.mpr fun c hc => by simpa using h c hc
  unfold setActiveClinic
  rw [hf]

/-- Claim C8, witness: one stored clinic with id `"1"`, asked to activate
the unknown id `"2"`. -/
theorem setActiveClinic_unknown_witness :
    setActiveClinic ⟨[⟨"1", "My Clinic", "", "", true, "T"⟩],
        some ⟨"1", "My Clinic", "", "", true, "T"⟩⟩
      ⟨some [⟨"1", "My Clinic", "", "", true, "T"⟩], some "1"⟩ "2" =
      (⟨[⟨"1", "My Clinic", "", "", true, "T"⟩], some ⟨"1", "My Clinic", "", "", true, "T"⟩⟩,
       ⟨some [⟨"1", "My Clinic", "", "", true, "T"⟩], some "1"⟩) :=
  setActiveClinic_unknown _ _ _ (by decide)

/-- Claim C9: persisting all collections to storage as JSON and reloading
them as on an app restart reproduces every collection identically, element
for element and in order (patients, visits, appointments, income records
and expense records alike). -/
theorem persist_roundtrip (s : DataState) : loadData (saveCollections s) = s := by
  cases s with
  | mk ps vs aps inc es =>
    simp [loadData, saveCollections, loadCollection,
      decodeArr_map decodePatient encodePatient decodePatient_encodePatient,
      decodeArr_map decodeVisit encodeVisit decodeVisit_encodeVisit,
      decodeArr_map decodeAppointment encodeAppointment decodeAppointment_encodeAppointment,
      decodeArr_map decodeIncomeRecord encodeIncomeRecord decodeIncomeRecord_encodeIncomeRecord,
      decodeArr_map decodeExpenseRecord encodeExpenseRecord decodeExpenseRecord_encodeExpenseRecord]

/-- Claim C10: `deleteExpense(id)` removes every expense record whose id
equals the given id, keeps the remaining expense records in their original
relative order, and leaves the patients, visits, appointments and income
collections unchanged. -/
theorem deleteExpense_spec (s : DataState) (id : String) :
    (deleteExpense s id).expenseRecords = s.expenseRecords.filter (fun e => e.id != id) ∧
    (∀ e ∈ (deleteExpense s id).expenseRecords, e.id ≠ id) ∧
    (deleteExpense s id).expenseRecords.Sublist s.expenseRecords ∧
    (∀ e ∈ s.expenseRecords, e.id ≠ id → e ∈ (deleteExpense s id).expenseRecords) ∧
    (deleteExpense s id).patients = s.patients ∧
    (deleteExpense s id).visits = s.visits ∧
    (deleteExpense s id).appointments = s.appointments ∧
    (deleteExpense s id).incomeRecords = s.incomeRecords := by
  refine ⟨rfl, ?_, List.filter_sublist _, ?_, rfl, rfl, rfl, rfl⟩
  · intro e he
    have := (List.mem_filter.mp he).2
    simpa using this
  · intro e he hne
    exact List.mem_filter.mpr ⟨he, by simpa using hne⟩
